import Mathlib

/-!
Verification of the HxComponents component registry and lifecycle dispatcher.

This file shallowly embeds the dispatch engine of the `components` package:
the registry (`Register`), the per-request lifecycle dispatcher
(`HandlerFor`'s body, here `dispatch`), the event handler resolution and
invocation (`handleEvent`, `capitalize`), and the outbound HTMX header
bridge (`applyHxResponseHeaders`).

A component instance is modelled by a record describing which optional
capability interfaces it implements and what each hook returns for the
current request; reflective method lookup is modelled by an association
list from method names to method descriptors.  The dispatcher is a pure
function from an instance and a request to a response descriptor that
records the sequence of lifecycle calls made, the outcome (error kind or
success), the HTTP status, and the HTMX response headers written.

The method name derivation `capitalize` is embedded twice: once at the
byte level Go executes it (`capitalizeGo`, where `strings.ToUpper(s[:1])`
transforms the first byte and mangles a multi-byte first rune to U+FFFD)
and once at the rune level used inside the dispatch model (`capitalize`),
with a theorem (`strBytes_capitalize_ascii`) proving the two agree
exactly on names that are empty or start with an ASCII character.
-/

namespace HxComponents

/-- Form data as parsed from the request: Go's `url.Values`, a map from
field name to the list of values supplied for it. -/
abbrev FormData := List (String × List String)

/-- Map lookup on form data (`formData[key]` in Go). -/
def lookupField (fd : FormData) (key : String) : Option (List String) :=
  (fd.find? (fun p => p.1 == key)).map Prod.snd

/-- Go strings are byte sequences; a byte is modelled as a natural
number below 256. -/
abbrev GoBytes := List Nat

/-- UTF-8 encoding of one Unicode scalar value. -/
def utf8Bytes (c : Char) : GoBytes :=
  let n := c.toNat
  if n < 128 then [n]
  else if n < 2048 then [192 + n / 64, 128 + n % 64]
  else if n < 65536 then [224 + n / 4096, 128 + n / 64 % 64, 128 + n % 64]
  else [240 + n / 262144, 128 + n / 4096 % 64, 128 + n / 64 % 64, 128 + n % 64]

/-- The UTF-8 bytes of a string: the byte sequence Go stores for it. -/
def strBytes (s : String) : GoBytes := List.flatten (s.toList.map utf8Bytes)

/-- Action of `strings.ToUpper` on the one-byte string `s[:1]` that
`capitalize` extracts: an ASCII lowercase letter is uppercased, any other
ASCII byte is unchanged, and a byte of 128 or more is an invalid one-byte
UTF-8 sequence that `strings.ToUpper` replaces with the replacement
character U+FFFD (bytes EF BF BD). -/
def toUpperGoByte (b : Nat) : GoBytes :=
  if 97 ≤ b ∧ b ≤ 122 then [b - 32]
  else if b < 128 then [b]
  else [239, 191, 189]

/-- Embedding of `capitalize` at the byte level Go executes it:
`strings.ToUpper(s[:1]) + s[1:]` on the byte string, with
`capitalize("") = ""`.  Only the first byte is transformed, so the first
rune is uppercased exactly when it is an ASCII letter; a multi-byte first
rune is mangled, its lead byte becoming U+FFFD. -/
def capitalizeGo (s : GoBytes) : GoBytes :=
  match s with
  | [] => []
  | b :: rest => toUpperGoByte b ++ rest

/-- The derived handler method name as a Go byte string:
`"On" + capitalize(eventName)`. -/
def methodNameForGo (eventName : GoBytes) : GoBytes :=
  strBytes "On" ++ capitalizeGo eventName

/-- Rune-level counterpart of `toUpperGoByte`: uppercases an ASCII
lowercase letter and leaves any other character unchanged.  For an ASCII
character this is exactly what `strings.ToUpper` does to the one-byte
string holding it; for a non-ASCII character it is not (see
`toUpperGoByte`). -/
def toUpperAscii (c : Char) : Char :=
  if 97 ≤ c.toNat ∧ c.toNat ≤ 122 then Char.ofNat (c.toNat - 32) else c

/-- Rune-level counterpart of `capitalizeGo`, used inside the dispatch
model where names are kept as character strings: converts the first
character to uppercase when it is an ASCII letter, leaving the remainder
unchanged.  It agrees byte-for-byte with `capitalizeGo` exactly on
strings that are empty or start with an ASCII character
(`strBytes_capitalize_ascii`); on a multi-byte first rune Go instead
produces the mangled byte string described at `capitalizeGo`, which is
not valid UTF-8 and has no counterpart character string. -/
def capitalize (s : String) : String :=
  match s.toList with
  | [] => ""
  | c :: cs => String.mk (toUpperAscii c :: cs)

/-- The method name the dispatcher derives for an event, at the rune
level of the dispatch model: `"On" + capitalize(eventName)`. -/
def methodNameFor (eventName : String) : String :=
  "On" ++ capitalize eventName

/-- Descriptor of a method found by reflection: number of input parameters
(receiver excluded), whether the first input implements `context.Context`,
number of results, and the first result viewed as a non-nil `error`
(`none` when there is no non-nil error there, including when the first
result is not error-typed). -/
structure GoMethod where
  numIn : Nat
  in0IsContext : Bool
  numOut : Nat
  firstResultError : Option String
deriving DecidableEq, Repr

/-- Reflective method lookup (`reflect.Value.MethodByName`). -/
def lookupMethod (ms : List (String × GoMethod)) (name : String) : Option GoMethod :=
  (ms.find? (fun p => p.1 == name)).map Prod.snd

/-- The error extracted from a handler invocation: the code inspects
`results[0]` only when `len(results) > 0`, and treats it as a failure only
when it is a non-nil error. -/
def callResultError (m : GoMethod) : Option String :=
  if m.numOut > 0 then m.firstResultError else none

/-- A component instance, described by the optional capability interfaces
it implements and the behaviour of each hook for the current request.  A
`has…` flag models the corresponding interface type assertion; the paired
field models the value the hook returns when invoked.  The `getHx…` fields
model the outbound header getter capabilities: `none` means the interface
is not implemented, `some v` means it is and returns `v`. -/
structure Instance where
  hasInitializer : Bool
  initErr : Option String
  hasValidator : Bool
  validateErrs : List String
  hasBeforeEvent : Bool
  beforeEventErr : String → Option String
  methods : List (String × GoMethod)
  hasAfterEvent : Bool
  afterEventErr : String → Option String
  hasProcessor : Bool
  processErr : Option String
  implementsComponent : Bool
  renderErr : Option String
  getHxLocation : Option String
  getHxPushUrl : Option String
  getHxRedirect : Option String
  getHxRefresh : Option Bool
  getHxReplaceUrl : Option String
  getHxReswap : Option String
  getHxRetarget : Option String
  getHxReselect : Option String
  getHxTrigger : Option String
  getHxTriggerAfterSettle : Option String
  getHxTriggerAfterSwap : Option String

/-- One entry of the recorded lifecycle call log. -/
inductive Call where
  | init
  | validate
  | beforeEvent (eventName : String)
  | onEvent (methodName : String)
  | afterEvent (eventName : String)
  | process
  | render
deriving DecidableEq, Repr

/-- Error value produced by `handleEvent`, one constructor per `return`
of an error in the source. -/
inductive EventErr where
  | beforeEventFailed (msg : String)
  | eventNotFound (componentName eventName : String)
  | badArity (methodName : String)
  | badCtxParam (methodName : String)
  | handlerFailed (msg : String)
  | afterEventFailed (msg : String)
deriving DecidableEq, Repr

/-- Whether an event error is one of the two handler-signature
validation failures (the spec's kind invalid-handler-signature). -/
def EventErr.isInvalidSignature : EventErr → Bool
  | .badArity _ => true
  | .badCtxParam _ => true
  | _ => false

/-- The failure kind of a dispatch, matching the `renderError` sites of
`HandlerFor`. -/
inductive ErrKind where
  | parse
  | decode
  | init
  | event (e : EventErr)
  | process
  | configuration
  | render
deriving DecidableEq, Repr

/-- The observable result of one dispatch: the lifecycle call log, the
outcome (`none` on success), the HTTP status code, the HTMX response
headers written, and the `hasEvent` flag the handler tracks. -/
structure Response where
  calls : List Call
  outcome : Option ErrKind
  statusCode : Nat
  hxHeaders : List (String × String)
  hasEvent : Bool
deriving DecidableEq, Repr

/-- The request-dependent inputs of a dispatch: the outcome of
`req.ParseForm()`, the outcome of decoding the fresh instance from the
form data (the external decoder collaborator), and the form data. -/
structure Request where
  parseFormError : Option String
  decodeError : Option String
  formData : FormData

/-- The `Init` stage: invoked only when the instance implements
`Initializer`; yields the calls made and the error returned. -/
def initStage (inst : Instance) : List Call × Option String :=
  if inst.hasInitializer then ([Call.init], inst.initErr) else ([], none)

/-- The `BeforeEvent` hook invocation inside `handleEvent`. -/
def beforeEventStage (inst : Instance) (eventName : String) : List Call × Option String :=
  if inst.hasBeforeEvent then ([Call.beforeEvent eventName], inst.beforeEventErr eventName)
  else ([], none)

/-- The `AfterEvent` hook invocation inside `handleEvent`. -/
def afterEventStage (inst : Instance) (eventName : String) : List Call × Option String :=
  if inst.hasAfterEvent then ([Call.afterEvent eventName], inst.afterEventErr eventName)
  else ([], none)

/-- Embedding of `handleEvent`: `BeforeEvent`, then resolution of
`On{EventName}` by reflection, input-signature validation, invocation,
and `AfterEvent`; returns the calls made on the instance and the error,
if any. -/
def handleEvent (inst : Instance) (eventName componentName : String) :
    List Call × Option EventErr :=
  match beforeEventStage inst eventName with
  | (bc, some msg) => (bc, some (.beforeEventFailed msg))
  | (bc, none) =>
    match lookupMethod inst.methods (methodNameFor eventName) with
    | none => (bc, some (.eventNotFound componentName eventName))
    | some m =>
      if m.numIn ≠ 1 then (bc, some (.badArity (methodNameFor eventName)))
      else if m.in0IsContext = false then (bc, some (.badCtxParam (methodNameFor eventName)))
      else
        let hc := bc ++ [Call.onEvent (methodNameFor eventName)]
        match callResultError m with
        | some msg => (hc, some (.handlerFailed msg))
        | none =>
          match afterEventStage inst eventName with
          | (ac, some msg) => (hc ++ ac, some (.afterEventFailed msg))
          | (ac, none) => (hc ++ ac, none)

/-- One optional outbound header: written only when the getter capability
is implemented and the returned value is non-empty. -/
def optHeader (name : String) (v : Option String) : List (String × String) :=
  match v with
  | some s => if s ≠ "" then [(name, s)] else []
  | none => []

/-- The refresh header: written only when the getter capability is
implemented and returns `true`. -/
def refreshHeader (v : Option Bool) : List (String × String) :=
  match v with
  | some true => [("HX-Refresh", "true")]
  | _ => []

/-- Embedding of `applyHxResponseHeaders`: the outbound header bridge,
one conditional write per getter capability. -/
def applyHxResponseHeaders (inst : Instance) : List (String × String) :=
  optHeader "HX-Location" inst.getHxLocation ++
  optHeader "HX-Push-Url" inst.getHxPushUrl ++
  optHeader "HX-Redirect" inst.getHxRedirect ++
  refreshHeader inst.getHxRefresh ++
  optHeader "HX-Replace-Url" inst.getHxReplaceUrl ++
  optHeader "HX-Reswap" inst.getHxReswap ++
  optHeader "HX-Retarget" inst.getHxRetarget ++
  optHeader "HX-Reselect" inst.getHxReselect ++
  optHeader "HX-Trigger" inst.getHxTrigger ++
  optHeader "HX-Trigger-After-Settle" inst.getHxTriggerAfterSettle ++
  optHeader "HX-Trigger-After-Swap" inst.getHxTriggerAfterSwap

/-- The tail of the dispatcher after the event branch: `Process`, the
outbound header bridge, the `templ.Component` assertion, and `Render`. -/
def finishStage (inst : Instance) (calls : List Call) (hasEvent : Bool) : Response :=
  match (if inst.hasProcessor then ([Call.process], inst.processErr)
         else (([] : List Call), (none : Option String))) with
  | (pc, some _) =>
    { calls := calls ++ pc, outcome := some .process, statusCode := 500,
      hxHeaders := [], hasEvent := hasEvent }
  | (pc, none) =>
    let hdrs := applyHxResponseHeaders inst
    if inst.implementsComponent then
      match inst.renderErr with
      | some _ =>
        { calls := calls ++ pc ++ [Call.render], outcome := some .render,
          statusCode := 500, hxHeaders := hdrs, hasEvent := hasEvent }
      | none =>
        { calls := calls ++ pc ++ [Call.render], outcome := none,
          statusCode := 200, hxHeaders := hdrs, hasEvent := hasEvent }
    else
      { calls := calls ++ pc, outcome := some .configuration,
        statusCode := 500, hxHeaders := hdrs, hasEvent := hasEvent }

/-- The body of `HandlerFor` from form parsing onward: parse, decode,
`Init`, `Validate` (non-fatal), the event branch keyed on the reserved
`hxc-event` field, then `finishStage`. -/
def dispatch (inst : Instance) (req : Request) (componentName : String) : Response :=
  match req.parseFormError with
  | some _ =>
    { calls := [], outcome := some .parse, statusCode := 400,
      hxHeaders := [], hasEvent := false }
  | none =>
    match req.decodeError with
    | some _ =>
      { calls := [], outcome := some .decode, statusCode := 400,
        hxHeaders := [], hasEvent := false }
    | none =>
      match initStage inst with
      | (ic, some _) =>
        { calls := ic, outcome := some .init, statusCode := 500,
          hxHeaders := [], hasEvent := false }
      | (ic, none) =>
        let vc := ic ++ (if inst.hasValidator then [Call.validate] else [])
        match lookupField req.formData "hxc-event" with
        | some (eventName :: _) =>
          match handleEvent inst eventName componentName with
          | (ec, some ee) =>
            { calls := vc ++ ec, outcome := some (.event ee), statusCode := 500,
              hxHeaders := [], hasEvent := true }
          | (ec, none) => finishStage inst (vc ++ ec) true
        | some [] => finishStage inst vc false
        | none => finishStage inst vc false

/-! ### The type registry (`Register`) -/

/-- The reflected kind of a Go type (only the kinds `Register`
distinguishes). -/
inductive RKind where
  | ptr
  | struct_
  | other
deriving DecidableEq, Repr

/-- The reflected type descriptor of the zero value of the registered
type parameter: its kind, the kind of its pointee (meaningful when the
kind is pointer), the pointee's name, and whether the type satisfies the
`templ.Component` render contract. -/
structure RType where
  kind : RKind
  elemKind : RKind
  elemName : String
  implementsComponent : Bool
deriving DecidableEq, Repr

/-- Embedding of `componentEntry`, together with the two properties of
the stored struct type that registration validated (the struct kind of the
pointee and that the pointer type implements `templ.Component`). -/
structure RegEntry where
  elemName : String
  elemIsStruct : Bool
  implComponent : Bool
deriving DecidableEq, Repr

/-- The reason `Register` panics, one constructor per `panic` site. -/
inductive RegisterError where
  | emptyName
  | nilType
  | notPointer
  | pointeeNotStruct
  | missingRenderContract
  | duplicateName
deriving DecidableEq, Repr

/-- The registry's components table, name to entry. -/
abbrev Registry := List (String × RegEntry)

/-- Whether a name is already present in the table. -/
def isRegistered (r : Registry) (name : String) : Bool :=
  (r.find? (fun p => p.1 == name)).isSome

/-- Embedding of `Register`.  The type argument is the reflected type
of the zero value of the generic parameter; `none` models an interface
type argument, whose zero value reflects to a nil type.  An `error`
result models a panic raised at registration time; `ok` returns the table
with the new entry inserted. -/
def Register (r : Registry) (name : String) (t : Option RType) :
    Except RegisterError Registry :=
  if name = "" then .error .emptyName
  else
    match t with
    | none => .error .nilType
    | some ty =>
      if ty.kind ≠ RKind.ptr then .error .notPointer
      else if ty.elemKind ≠ RKind.struct_ then .error .pointeeNotStruct
      else if ty.implementsComponent = false then .error .missingRenderContract
      else if isRegistered r name then .error .duplicateName
      else .ok ((name, ⟨ty.elemName, true, true⟩) :: r)

/-- Whether the type argument is a pointer type. -/
def typeIsPtr : Option RType → Bool
  | some ty => ty.kind == RKind.ptr
  | none => false

/-- Whether the type argument's pointee is a struct. -/
def typeElemIsStruct : Option RType → Bool
  | some ty => ty.elemKind == RKind.struct_
  | none => false

/-- Whether the type argument satisfies the render contract. -/
def typeImplementsComponent : Option RType → Bool
  | some ty => ty.implementsComponent
  | none => false

/-- Whether `Register` succeeded. -/
def regOk (x : Except RegisterError Registry) : Bool :=
  match x with
  | .ok _ => true
  | .error _ => false

/-- The registry states reachable from a fresh registry (`NewRegistry`)
by any sequence of operations; `Register` is the only operation that
writes the table, and a panicking `Register` leaves it unchanged. -/
inductive Reachable : Registry → Prop where
  | empty : Reachable []
  | step {r : Registry} {name : String} {t : Option RType} {r' : Registry} :
      Reachable r → Register r name t = .ok r' → Reachable r'

/-- A header write is justified: the corresponding getter capability is
implemented and returned a non-empty value (true for the refresh flag). -/
def headerJustified (inst : Instance) (n v : String) : Prop :=
  (n = "HX-Location" ∧ inst.getHxLocation = some v ∧ v ≠ "") ∨
  (n = "HX-Push-Url" ∧ inst.getHxPushUrl = some v ∧ v ≠ "") ∨
  (n = "HX-Redirect" ∧ inst.getHxRedirect = some v ∧ v ≠ "") ∨
  (n = "HX-Refresh" ∧ inst.getHxRefresh = some true ∧ v = "true") ∨
  (n = "HX-Replace-Url" ∧ inst.getHxReplaceUrl = some v ∧ v ≠ "") ∨
  (n = "HX-Reswap" ∧ inst.getHxReswap = some v ∧ v ≠ "") ∨
  (n = "HX-Retarget" ∧ inst.getHxRetarget = some v ∧ v ≠ "") ∨
  (n = "HX-Reselect" ∧ inst.getHxReselect = some v ∧ v ≠ "") ∨
  (n = "HX-Trigger" ∧ inst.getHxTrigger = some v ∧ v ≠ "") ∨
  (n = "HX-Trigger-After-Settle" ∧ inst.getHxTriggerAfterSettle = some v ∧ v ≠ "") ∨
  (n = "HX-Trigger-After-Swap" ∧ inst.getHxTriggerAfterSwap = some v ∧ v ≠ "")

/-! ### Concrete components and requests used by the witnesses -/

/-- A concrete instance implementing only the render contract. -/
def baseInstance : Instance :=
  { hasInitializer := false, initErr := none,
    hasValidator := false, validateErrs := [],
    hasBeforeEvent := false, beforeEventErr := fun _ => none,
    methods := [],
    hasAfterEvent := false, afterEventErr := fun _ => none,
    hasProcessor := false, processErr := none,
    implementsComponent := true, renderErr := none,
    getHxLocation := none, getHxPushUrl := none, getHxRedirect := none,
    getHxRefresh := none, getHxReplaceUrl := none, getHxReswap := none,
    getHxRetarget := none, getHxReselect := none, getHxTrigger := none,
    getHxTriggerAfterSettle := none, getHxTriggerAfterSwap := none }

/-- A concrete instance implementing every lifecycle capability of the
full event sequence, with an `OnIncrement` handler of the documented
shape, where every stage succeeds. -/
def instAllHooks : Instance :=
  { baseInstance with
    hasInitializer := true,
    hasBeforeEvent := true,
    methods := [("OnIncrement", ⟨1, true, 1, none⟩)],
    hasAfterEvent := true,
    hasProcessor := true }

/-- A concrete instance whose resolved handler takes one context
parameter but returns no results at all. -/
def instNoResultHandler : Instance :=
  { baseInstance with
    methods := [("OnFoo", ⟨1, true, 0, none⟩)],
    hasProcessor := true }

/-- A concrete instance whose resolved handler takes two parameters. -/
def instBadArity : Instance :=
  { baseInstance with methods := [("OnFoo", ⟨2, true, 1, none⟩)] }

/-- A concrete instance whose `BeforeEvent` hook fails. -/
def instBeforeFails : Instance :=
  { baseInstance with
    hasBeforeEvent := true,
    beforeEventErr := fun _ => some "denied" }

/-- A concrete instance whose `Process` hook fails while a header getter
capability is implemented and non-empty. -/
def instProcessFails : Instance :=
  { baseInstance with
    hasProcessor := true,
    processErr := some "boom",
    getHxRedirect := some "/login" }

/-- A concrete instance whose `Validate` hook reports errors. -/
def instValidatorErrs : Instance :=
  { baseInstance with hasValidator := true, validateErrs := ["required"] }

/-- A request with no event field. -/
def reqPlain : Request :=
  { parseFormError := none, decodeError := none, formData := [] }

/-- A request whose form decoding fails. -/
def reqBadDecode : Request :=
  { parseFormError := none, decodeError := some "bad int", formData := [] }

/-- A request carrying the event "increment". -/
def reqIncrement : Request :=
  { parseFormError := none, decodeError := none,
    formData := [("count", ["5"]), ("hxc-event", ["increment"])] }

/-- A request carrying the event "foo". -/
def reqFoo : Request :=
  { parseFormError := none, decodeError := none,
    formData := [("hxc-event", ["foo"])] }

/-- A request carrying the event "additem". -/
def reqAdditem : Request :=
  { parseFormError := none, decodeError := none,
    formData := [("hxc-event", ["additem"])] }

/-- A well-formed registered type: pointer to struct implementing the
render contract. -/
def counterType : RType := ⟨RKind.ptr, RKind.struct_, "Counter", true⟩

/-- The registry entry produced by registering `counterType`. -/
def counterEntry : RegEntry := ⟨"Counter", true, true⟩

/-- The registry obtained by one successful registration. -/
def demoRegistry : Registry := [("counter", counterEntry)]

/-! ### The byte-level and rune-level name derivations -/

theorem toNat_toUpperAscii (c : Char) (h1 : 97 ≤ c.toNat) (h2 : c.toNat ≤ 122) :
    (toUpperAscii c).toNat = c.toNat - 32 := by
  have hv : (c.toNat - 32).isValidChar := Or.inl (by omega)
  rw [toUpperAscii, if_pos (And.intro h1 h2), Char.ofNat, dif_pos hv]
  rfl

/-- On a string whose first character is ASCII, the rune-level
`capitalize` of the dispatch model produces exactly the byte string Go's
`capitalize` produces. -/
theorem strBytes_capitalize_ascii (c : Char) (cs : List Char) (h : c.toNat < 128) :
    strBytes (capitalize (String.mk (c :: cs)))
      = capitalizeGo (strBytes (String.mk (c :: cs))) := by
  have hb : strBytes (String.mk (c :: cs)) = utf8Bytes c ++ List.flatten (cs.map utf8Bytes) := by
    simp [strBytes, String.mk]
  have hc : utf8Bytes c = [c.toNat] := by
    simp [utf8Bytes, h]
  have hcap : capitalize (String.mk (c :: cs)) = String.mk (toUpperAscii c :: cs) := by
    simp [capitalize, String.mk]
  rw [hcap, hb, hc]
  by_cases hl : 97 ≤ c.toNat ∧ c.toNat ≤ 122
  · have hu : (toUpperAscii c).toNat = c.toNat - 32 := toNat_toUpperAscii c hl.1 hl.2
    have hub : utf8Bytes (toUpperAscii c) = [c.toNat - 32] := by
      simp [utf8Bytes, hu]
      omega
    simp [strBytes, String.mk, capitalizeGo, toUpperGoByte, hl, hub]
  · have hu : toUpperAscii c = c := by
      simp [toUpperAscii, hl]
    simp [strBytes, String.mk, capitalizeGo, toUpperGoByte, hl, hu, hc, h]

theorem strBytes_append (a b : String) :
    strBytes (a ++ b) = strBytes a ++ strBytes b := by
  simp [strBytes]

/-- On an event name whose first character is ASCII, the rune-level
method name derivation of the dispatch model agrees byte-for-byte with
Go's. -/
theorem strBytes_methodNameFor_ascii (c : Char) (cs : List Char) (h : c.toNat < 128) :
    strBytes (methodNameFor (String.mk (c :: cs)))
      = methodNameForGo (strBytes (String.mk (c :: cs))) := by
  rw [methodNameFor, methodNameForGo, strBytes_append, strBytes_capitalize_ascii c cs h]

/-! ### Helper lemmas about the stages -/

theorem mem_initStage_calls {inst : Instance} {c : Call}
    (h : c ∈ (initStage inst).1) : c = Call.init := by
  unfold initStage at h
  split at h <;> simp at h
  exact h

theorem mem_beforeEventStage_calls {inst : Instance} {e : String} {c : Call}
    (h : c ∈ (beforeEventStage inst e).1) : c = Call.beforeEvent e := by
  unfold beforeEventStage at h
  split at h <;> simp at h
  exact h

theorem mem_afterEventStage_calls {inst : Instance} {e : String} {c : Call}
    (h : c ∈ (afterEventStage inst e).1) : c = Call.afterEvent e := by
  unfold afterEventStage at h
  split at h <;> simp at h
  exact h

theorem finishStage_hasEvent (inst : Instance) (cs : List Call) (he : Bool) :
    (finishStage inst cs he).hasEvent = he := by
  rcases hp : inst.hasProcessor <;> rcases hpe : inst.processErr with _ | m <;>
    rcases hic : inst.implementsComponent <;> rcases hre : inst.renderErr with _ | m2 <;>
    simp_all [finishStage]

theorem mem_finishStage_calls {inst : Instance} {cs : List Call} {he : Bool} {c : Call}
    (h : c ∈ (finishStage inst cs he).calls) :
    c ∈ cs ∨ c = Call.process ∨ c = Call.render := by
  rcases hp : inst.hasProcessor <;> rcases hpe : inst.processErr with _ | m <;>
    rcases hic : inst.implementsComponent <;> rcases hre : inst.renderErr with _ | m2 <;>
    simp_all [finishStage] <;> tauto

theorem finishStage_calls_mono {inst : Instance} {cs : List Call} {he : Bool} {c : Call}
    (h : c ∈ cs) : c ∈ (finishStage inst cs he).calls := by
  rcases hp : inst.hasProcessor <;> rcases hpe : inst.processErr with _ | m <;>
    rcases hic : inst.implementsComponent <;> rcases hre : inst.renderErr with _ | m2 <;>
    simp_all [finishStage]

theorem finishStage_outcome_headers (inst : Instance) (cs : List Call) (he : Bool) :
    ((finishStage inst cs he).outcome = some ErrKind.process
        ∧ (finishStage inst cs he).hxHeaders = []) ∨
    ((finishStage inst cs he).hxHeaders = applyHxResponseHeaders inst
        ∧ ((finishStage inst cs he).outcome = none
            ∨ (finishStage inst cs he).outcome = some ErrKind.render
            ∨ (finishStage inst cs he).outcome = some ErrKind.configuration)) := by
  rcases hp : inst.hasProcessor <;> rcases hpe : inst.processErr with _ | m <;>
    rcases hic : inst.implementsComponent <;> rcases hre : inst.renderErr with _ | m2 <;>
    simp_all [finishStage]

theorem finishStage_config (inst : Instance) (cs : List Call) (he : Bool)
    (h : inst.implementsComponent = true) :
    (finishStage inst cs he).outcome ≠ some ErrKind.configuration := by
  rcases hp : inst.hasProcessor <;> rcases hpe : inst.processErr with _ | m <;>
    rcases hre : inst.renderErr with _ | m2 <;>
    simp_all [finishStage]

theorem finishStage_outcome_const (inst : Instance) (cs cs' : List Call) (he he' : Bool) :
    (finishStage inst cs he).outcome = (finishStage inst cs' he').outcome
    ∧ (finishStage inst cs he).statusCode = (finishStage inst cs' he').statusCode := by
  rcases hp : inst.hasProcessor <;> rcases hpe : inst.processErr with _ | m <;>
    rcases hic : inst.implementsComponent <;> rcases hre : inst.renderErr with _ | m2 <;>
    simp_all [finishStage]

/-! ### Outbound header bridge lemmas -/

theorem mem_optHeader {nm n v : String} {o : Option String}
    (h : (n, v) ∈ optHeader nm o) : n = nm ∧ o = some v ∧ v ≠ "" := by
  unfold optHeader at h
  cases o with
  | none => simp at h
  | some s =>
    by_cases hs : s = ""
    · simp [hs] at h
    · simp [hs] at h
      exact ⟨h.1, by rw [h.2], h.2 ▸ hs⟩

theorem mem_refreshHeader {n v : String} {o : Option Bool}
    (h : (n, v) ∈ refreshHeader o) : n = "HX-Refresh" ∧ o = some true ∧ v = "true" := by
  unfold refreshHeader at h
  rcases o with _ | b
  · simp at h
  · rcases b
    · simp at h
    · simp at h
      exact ⟨h.1, rfl, h.2⟩

theorem mem_applyHxResponseHeaders {inst : Instance} {n v : String}
    (h : (n, v) ∈ applyHxResponseHeaders inst) : headerJustified inst n v := by
  unfold applyHxResponseHeaders at h
  simp only [List.mem_append] at h
  unfold headerJustified
  rcases h with ((((((((((h | h) | h) | h) | h) | h) | h) | h) | h) | h) | h)
  · exact Or.inl (mem_optHeader h)
  · exact Or.inr (Or.inl (mem_optHeader h))
  · exact Or.inr (Or.inr (Or.inl (mem_optHeader h)))
  · exact Or.inr (Or.inr (Or.inr (Or.inl (mem_refreshHeader h))))
  · exact Or.inr (Or.inr (Or.inr (Or.inr (Or.inl (mem_optHeader h)))))
  · exact Or.inr (Or.inr (Or.inr (Or.inr (Or.inr (Or.inl (mem_optHeader h))))))
  · exact Or.inr (Or.inr (Or.inr (Or.inr (Or.inr (Or.inr (Or.inl (mem_optHeader h)))))))
  · exact Or.inr (Or.inr (Or.inr (Or.inr (Or.inr (Or.inr (Or.inr (Or.inl (mem_optHeader h))))))))
  · exact Or.inr (Or.inr (Or.inr (Or.inr (Or.inr (Or.inr (Or.inr (Or.inr (Or.inl (mem_optHeader h)))))))))
  · exact Or.inr (Or.inr (Or.inr (Or.inr (Or.inr (Or.inr (Or.inr (Or.inr (Or.inr (Or.inl (mem_optHeader h))))))))))
  · exact Or.inr (Or.inr (Or.inr (Or.inr (Or.inr (Or.inr (Or.inr (Or.inr (Or.inr (Or.inr (mem_optHeader h))))))))))



/-! ### Dispatcher-level helper lemmas -/

theorem dispatch_headers_cases (inst : Instance) (req : Request) (cname : String) :
    (dispatch inst req cname).hxHeaders = []
    ∨ ((dispatch inst req cname).hxHeaders = applyHxResponseHeaders inst
        ∧ ((dispatch inst req cname).outcome = none
            ∨ (dispatch inst req cname).outcome = some ErrKind.render
            ∨ (dispatch inst req cname).outcome = some ErrKind.configuration)) := by
  obtain ⟨pf, de, fd⟩ := req
  rcases pf with _ | p
  · rcases de with _ | d
    · rcases hI : initStage inst with ⟨ic, ie⟩
      rcases ie with _ | ie
      · rcases hE : lookupField fd "hxc-event" with _ | (_ | ⟨e, rest⟩) <;>
          simp only [dispatch, hI, hE]
        · rcases finishStage_outcome_headers inst
            (ic ++ (if inst.hasValidator then [Call.validate] else [])) false with h | h
          · exact Or.inl h.2
          · exact Or.inr h
        · rcases finishStage_outcome_headers inst
            (ic ++ (if inst.hasValidator then [Call.validate] else [])) false with h | h
          · exact Or.inl h.2
          · exact Or.inr h
        · rcases hH : handleEvent inst e cname with ⟨ec, he⟩
          rcases he with _ | ee <;> simp only [hH]
          · rcases finishStage_outcome_headers inst
              ((ic ++ (if inst.hasValidator then [Call.validate] else [])) ++ ec) true with h | h
            · exact Or.inl h.2
            · exact Or.inr h
          · exact Or.inl (by simp)
      · simp only [dispatch, hI]
        exact Or.inl (by simp)
    · exact Or.inl rfl
  · exact Or.inl rfl

theorem finishStage_outcome_ne_event (inst : Instance) (cs : List Call) (he : Bool)
    (ee : EventErr) : (finishStage inst cs he).outcome ≠ some (ErrKind.event ee) := by
  rcases hp : inst.hasProcessor <;> rcases hpe : inst.processErr with _ | m <;>
    rcases hic : inst.implementsComponent <;> rcases hre : inst.renderErr with _ | m2 <;>
    simp_all [finishStage]

theorem dispatch_config_unreachable {inst : Instance} (req : Request) (cname : String)
    (h : inst.implementsComponent = true) :
    (dispatch inst req cname).outcome ≠ some ErrKind.configuration := by
  obtain ⟨pf, de, fd⟩ := req
  rcases pf with _ | p
  · rcases de with _ | d
    · rcases hI : initStage inst with ⟨ic, ie⟩
      rcases ie with _ | ie
      · rcases hE : lookupField fd "hxc-event" with _ | (_ | ⟨e, rest⟩) <;>
          simp only [dispatch, hI, hE]
        · exact finishStage_config inst _ false h
        · exact finishStage_config inst _ false h
        · rcases hH : handleEvent inst e cname with ⟨ec, he⟩
          rcases he with _ | ee <;> simp only [hH]
          · exact finishStage_config inst _ true h
          · simp
      · simp only [dispatch, hI]
        simp
    · simp [dispatch]
  · simp [dispatch]

theorem Register_ok_shape {r : Registry} {name : String} {t : Option RType} {r' : Registry}
    (h : Register r name t = .ok r') :
    ∃ ty, t = some ty ∧ ty.kind = RKind.ptr ∧ ty.elemKind = RKind.struct_
      ∧ ty.implementsComponent = true
      ∧ r' = (name, ⟨ty.elemName, true, true⟩) :: r := by
  unfold Register at h
  by_cases hn : name = ""
  · rw [if_pos hn] at h
    cases h
  rw [if_neg hn] at h
  rcases t with _ | ty
  · cases h
  dsimp only at h
  by_cases h1 : ty.kind ≠ RKind.ptr
  · rw [if_pos h1] at h
    cases h
  rw [if_neg h1] at h
  by_cases h2 : ty.elemKind ≠ RKind.struct_
  · rw [if_pos h2] at h
    cases h
  rw [if_neg h2] at h
  by_cases h3 : ty.implementsComponent = false
  · rw [if_pos h3] at h
    cases h
  rw [if_neg h3] at h
  by_cases h4 : isRegistered r name = true
  · rw [if_pos h4] at h
    cases h
  rw [if_neg h4] at h
  injection h with h5
  exact ⟨ty, rfl, not_not.1 h1, not_not.1 h2, by simpa using h3, h5.symm⟩


/-! ### The claims -/

/-- C1: for an instance implementing Initializer, BeforeEventHandler, an
On-handler of the documented shape, AfterEventHandler, Processor and the
render contract (and not Validator), dispatching a request carrying event
name `e`, with every stage succeeding, invokes exactly the sequence Init,
BeforeEvent(e), the On-handler, AfterEvent(e), Process, Render, in that
order, each exactly once, and succeeds with status 200. -/
theorem dispatch_full_event_sequence
    (inst : Instance) (req : Request) (cname e : String) (rest : List String) (m : GoMethod)
    (hparse : req.parseFormError = none)
    (hdec : req.decodeError = none)
    (hevt : lookupField req.formData "hxc-event" = some (e :: rest))
    (hinit : inst.hasInitializer = true)
    (hinitok : inst.initErr = none)
    (hnoval : inst.hasValidator = false)
    (hbe : inst.hasBeforeEvent = true)
    (hbeok : inst.beforeEventErr e = none)
    (hm : lookupMethod inst.methods (methodNameFor e) = some m)
    (hin : m.numIn = 1)
    (hctx : m.in0IsContext = true)
    (hout : m.numOut = 1)
    (hres : m.firstResultError = none)
    (hae : inst.hasAfterEvent = true)
    (haeok : inst.afterEventErr e = none)
    (hp : inst.hasProcessor = true)
    (hpok : inst.processErr = none)
    (hrc : inst.implementsComponent = true)
    (hrok : inst.renderErr = none) :
    (dispatch inst req cname).calls =
      [Call.init, Call.beforeEvent e, Call.onEvent (methodNameFor e),
       Call.afterEvent e, Call.process, Call.render]
    ∧ (dispatch inst req cname).outcome = none
    ∧ (dispatch inst req cname).statusCode = 200 := by
  simp only [dispatch, hparse, hdec, hevt, initStage, hinit, hinitok, hnoval,
    handleEvent, beforeEventStage, hbe, hbeok, hm, hin, hctx,
    callResultError, hout, hres, afterEventStage, hae, haeok,
    finishStage, hp, hpok, hrc, hrok]
  simp

/-- Witness for C1 at a concrete counter component and an increment
request. -/
theorem dispatch_full_event_sequence_witness :
    (dispatch instAllHooks reqIncrement "counter").calls =
      [Call.init, Call.beforeEvent "increment", Call.onEvent (methodNameFor "increment"),
       Call.afterEvent "increment", Call.process, Call.render]
    ∧ (dispatch instAllHooks reqIncrement "counter").outcome = none
    ∧ (dispatch instAllHooks reqIncrement "counter").statusCode = 200 :=
  dispatch_full_event_sequence instAllHooks reqIncrement "counter" "increment" []
    ⟨1, true, 1, none⟩ rfl rfl rfl rfl rfl rfl rfl rfl rfl rfl rfl rfl rfl rfl rfl rfl rfl rfl rfl

/-- Counterexample to C2: a resolved handler taking exactly one context
parameter but returning no result at all (so not "exactly one
error-shaped result") is invoked and treated as a success: the dispatch
does not fail with an invalid-handler-signature error, and AfterEvent,
Process and Render still run. -/
theorem handler_result_shape_unchecked_cex :
    lookupMethod instNoResultHandler.methods (methodNameFor "foo")
        = some ⟨1, true, 0, none⟩
    ∧ (dispatch instNoResultHandler reqFoo "demo").outcome = none
    ∧ (dispatch instNoResultHandler reqFoo "demo").statusCode = 200
    ∧ Call.process ∈ (dispatch instNoResultHandler reqFoo "demo").calls
    ∧ Call.render ∈ (dispatch instNoResultHandler reqFoo "demo").calls := by
  decide

/-- C2 (amended): the dispatch fails with kind invalid-handler-signature,
terminating with no handler, AfterEvent, Process or Render call, exactly
when the resolved handler does not take exactly one input parameter of a
context type; the result shape is not validated, so a wrong result shape
alone never produces an invalid-handler-signature failure. -/
theorem dispatch_invalid_signature_input_only (inst : Instance) (req : Request)
    (cname e : String) (rest : List String) (m : GoMethod)
    (hparse : req.parseFormError = none)
    (hdec : req.decodeError = none)
    (hinitok : (initStage inst).2 = none)
    (hevt : lookupField req.formData "hxc-event" = some (e :: rest))
    (hbeok : (beforeEventStage inst e).2 = none)
    (hm : lookupMethod inst.methods (methodNameFor e) = some m) :
    (¬ (m.numIn = 1 ∧ m.in0IsContext = true) →
      ∃ ee, (dispatch inst req cname).outcome = some (ErrKind.event ee)
        ∧ ee.isInvalidSignature = true
        ∧ (dispatch inst req cname).statusCode = 500
        ∧ (∀ n, Call.onEvent n ∉ (dispatch inst req cname).calls)
        ∧ (∀ e2, Call.afterEvent e2 ∉ (dispatch inst req cname).calls)
        ∧ Call.process ∉ (dispatch inst req cname).calls
        ∧ Call.render ∉ (dispatch inst req cname).calls)
    ∧ (m.numIn = 1 → m.in0IsContext = true →
      ∀ ee, (dispatch inst req cname).outcome = some (ErrKind.event ee) →
        ee.isInvalidSignature = false) := by
  obtain ⟨pf, de, fd⟩ := req
  subst hparse
  subst hdec
  rcases hI : initStage inst with ⟨ic, ie⟩
  rw [hI] at hinitok
  subst hinitok
  rcases hB : beforeEventStage inst e with ⟨bc, be⟩
  rw [hB] at hbeok
  subst hbeok
  have hic : ∀ c ∈ ic, c = Call.init := fun c hc => mem_initStage_calls (by rw [hI]; exact hc)
  have hvc : ∀ c ∈ (if inst.hasValidator then [Call.validate] else []), c = Call.validate := by
    split <;> simp
  have hbc : ∀ c ∈ bc, c = Call.beforeEvent e :=
    fun c hc => mem_beforeEventStage_calls (by rw [hB]; exact hc)
  have hall : ∀ c ∈ (ic ++ (if inst.hasValidator then [Call.validate] else [])) ++ bc,
      c = Call.init ∨ c = Call.validate ∨ c = Call.beforeEvent e := by
    intro c hc
    rcases List.mem_append.1 hc with h | h
    · rcases List.mem_append.1 h with h | h
      · exact Or.inl (hic _ h)
      · exact Or.inr (Or.inl (hvc _ h))
    · exact Or.inr (Or.inr (hbc _ h))
  constructor
  · intro hbad
    by_cases hin : m.numIn = 1
    · have hctx : m.in0IsContext = false := by
        rcases hx : m.in0IsContext
        · rfl
        · exact absurd ⟨hin, hx⟩ hbad
      have hHE : handleEvent inst e cname
          = (bc, some (EventErr.badCtxParam (methodNameFor e))) := by
        simp [handleEvent, hB, hm, hin, hctx]
      refine ⟨EventErr.badCtxParam (methodNameFor e), ?_⟩
      simp only [dispatch, hI, hevt, hHE]
      refine ⟨trivial, rfl, trivial, ?_, ?_, ?_, ?_⟩
      · intro n hmem
        rcases hall _ hmem with h | h | h <;> simp at h
      · intro e2 hmem
        rcases hall _ hmem with h | h | h <;> simp at h
      · intro hmem
        rcases hall _ hmem with h | h | h <;> simp at h
      · intro hmem
        rcases hall _ hmem with h | h | h <;> simp at h
    · have hHE : handleEvent inst e cname
          = (bc, some (EventErr.badArity (methodNameFor e))) := by
        simp [handleEvent, hB, hm, hin]
      refine ⟨EventErr.badArity (methodNameFor e), ?_⟩
      simp only [dispatch, hI, hevt, hHE]
      refine ⟨trivial, rfl, trivial, ?_, ?_, ?_, ?_⟩
      · intro n hmem
        rcases hall _ hmem with h | h | h <;> simp at h
      · intro e2 hmem
        rcases hall _ hmem with h | h | h <;> simp at h
      · intro hmem
        rcases hall _ hmem with h | h | h <;> simp at h
      · intro hmem
        rcases hall _ hmem with h | h | h <;> simp at h
  · intro hin hctx ee
    rcases hcall : callResultError m with _ | msg
    · rcases hA : afterEventStage inst e with ⟨ac, ae⟩
      rcases ae with _ | amsg
      · have hHE : handleEvent inst e cname
            = (bc ++ [Call.onEvent (methodNameFor e)] ++ ac, none) := by
          simp [handleEvent, hB, hm, hin, hctx, hcall, hA]
        simp only [dispatch, hI, hevt, hHE]
        intro habs
        exact absurd habs (finishStage_outcome_ne_event inst _ true ee)
      · have hHE : handleEvent inst e cname
            = (bc ++ [Call.onEvent (methodNameFor e)] ++ ac,
               some (EventErr.afterEventFailed amsg)) := by
          simp [handleEvent, hB, hm, hin, hctx, hcall, hA]
        simp only [dispatch, hI, hevt, hHE]
        intro habs
        simp at habs
        subst habs
        rfl
    · have hHE : handleEvent inst e cname
          = (bc ++ [Call.onEvent (methodNameFor e)], some (EventErr.handlerFailed msg)) := by
        simp [handleEvent, hB, hm, hin, hctx, hcall]
      simp only [dispatch, hI, hevt, hHE]
      intro habs
      simp at habs
      subst habs
      rfl

/-- Witness for the amended C2 at a handler with two parameters. -/
theorem dispatch_invalid_signature_input_only_witness :
    ∃ ee, (dispatch instBadArity reqFoo "demo").outcome = some (ErrKind.event ee)
      ∧ ee.isInvalidSignature = true
      ∧ (dispatch instBadArity reqFoo "demo").statusCode = 500
      ∧ (∀ n, Call.onEvent n ∉ (dispatch instBadArity reqFoo "demo").calls)
      ∧ (∀ e2, Call.afterEvent e2 ∉ (dispatch instBadArity reqFoo "demo").calls)
      ∧ Call.process ∉ (dispatch instBadArity reqFoo "demo").calls
      ∧ Call.render ∉ (dispatch instBadArity reqFoo "demo").calls :=
  (dispatch_invalid_signature_input_only instBadArity reqFoo "demo" "foo" []
    ⟨2, true, 1, none⟩ rfl rfl rfl rfl rfl rfl).1 (by decide)

/-- Counterexample to C3: for the event name "über", whose first rune is
multi-byte, Go's derivation neither uppercases the first character nor
leaves the name unchanged: `strings.ToUpper` maps the lead byte, an
invalid one-byte UTF-8 sequence, to the replacement character U+FFFD, so
the derived method name bytes equal neither those of "OnÜber" (first
character uppercased, remainder unchanged) nor those of "Onüber" (name
unchanged). -/
theorem capitalize_first_rune_mangled_cex :
    strBytes "über" = [195, 188, 98, 101, 114]
    ∧ capitalizeGo (strBytes "über") = [239, 191, 189, 188, 98, 101, 114]
    ∧ methodNameForGo (strBytes "über") ≠ strBytes "OnÜber"
    ∧ methodNameForGo (strBytes "über") ≠ strBytes "Onüber" := by
  decide

/-- C3 (amended): the handler method name is derived as "On" followed by
the event name with its first byte uppercased by `strings.ToUpper`; for
an event name whose first character is ASCII this uppercases only that
character and leaves the remainder unchanged ("additem" resolves to
OnAdditem, not OnAddItem), and on that domain the model's rune-level
derivation agrees byte-for-byte with Go's (a non-ASCII first rune is
instead mangled to U+FFFD, see the counterexample); when no method of
the derived name exists on the instance, dispatch fails with kind
event-not-found carrying both the component name and the event name,
and Process and Render are called zero times. -/
theorem dispatch_event_not_found (inst : Instance) (req : Request) (cname e : String)
    (rest : List String)
    (hparse : req.parseFormError = none)
    (hdec : req.decodeError = none)
    (hinitok : (initStage inst).2 = none)
    (hevt : lookupField req.formData "hxc-event" = some (e :: rest))
    (hbeok : (beforeEventStage inst e).2 = none)
    (hnf : lookupMethod inst.methods (methodNameFor e) = none) :
    (∀ c cs, c.toNat < 128 →
        capitalize (String.mk (c :: cs)) = String.mk (toUpperAscii c :: cs))
    ∧ (∀ c cs, c.toNat < 128 →
        strBytes (methodNameFor (String.mk (c :: cs)))
          = methodNameForGo (strBytes (String.mk (c :: cs))))
    ∧ methodNameFor "additem" = "OnAdditem"
    ∧ methodNameFor "additem" ≠ "OnAddItem"
    ∧ (dispatch inst req cname).outcome = some (ErrKind.event (EventErr.eventNotFound cname e))
    ∧ (dispatch inst req cname).statusCode = 500
    ∧ Call.process ∉ (dispatch inst req cname).calls
    ∧ Call.render ∉ (dispatch inst req cname).calls := by
  refine ⟨?_, ?_, by decide, by decide, ?_⟩
  · intro c cs _
    simp [capitalize, String.mk]
  · intro c cs h
    exact strBytes_methodNameFor_ascii c cs h
  obtain ⟨pf, de, fd⟩ := req
  subst hparse
  subst hdec
  rcases hI : initStage inst with ⟨ic, ie⟩
  rw [hI] at hinitok
  subst hinitok
  rcases hB : beforeEventStage inst e with ⟨bc, be⟩
  rw [hB] at hbeok
  subst hbeok
  have hic : ∀ c ∈ ic, c = Call.init := fun c hc => mem_initStage_calls (by rw [hI]; exact hc)
  have hbc : ∀ c ∈ bc, c = Call.beforeEvent e :=
    fun c hc => mem_beforeEventStage_calls (by rw [hB]; exact hc)
  have hvc : ∀ c ∈ (if inst.hasValidator then [Call.validate] else []), c = Call.validate := by
    split <;> simp
  have hHE : handleEvent inst e cname = (bc, some (EventErr.eventNotFound cname e)) := by
    simp only [handleEvent, hB, hnf]
  simp only [dispatch, hI, hevt, hHE]
  refine ⟨trivial, trivial, ?_, ?_⟩ <;>
    · intro hmem
      simp only [List.mem_append] at hmem
      rcases hmem with (hmem | hmem) | hmem
      · exact absurd (hic _ hmem) (by simp)
      · exact absurd (hvc _ hmem) (by simp)
      · exact absurd (hbc _ hmem) (by simp)

/-- Witness for C3 at the event "additem" on a component without the
handler. -/
theorem dispatch_event_not_found_witness :
    (∀ c cs, c.toNat < 128 →
        capitalize (String.mk (c :: cs)) = String.mk (toUpperAscii c :: cs))
    ∧ (∀ c cs, c.toNat < 128 →
        strBytes (methodNameFor (String.mk (c :: cs)))
          = methodNameForGo (strBytes (String.mk (c :: cs))))
    ∧ methodNameFor "additem" = "OnAdditem"
    ∧ methodNameFor "additem" ≠ "OnAddItem"
    ∧ (dispatch baseInstance reqAdditem "cart").outcome
        = some (ErrKind.event (EventErr.eventNotFound "cart" "additem"))
    ∧ (dispatch baseInstance reqAdditem "cart").statusCode = 500
    ∧ Call.process ∉ (dispatch baseInstance reqAdditem "cart").calls
    ∧ Call.render ∉ (dispatch baseInstance reqAdditem "cart").calls :=
  dispatch_event_not_found baseInstance reqAdditem "cart" "additem" [] rfl rfl rfl rfl rfl rfl

/-- C4: once parse, decode and Init succeed, the event branch is entered
exactly when the request form data carries the reserved "hxc-event" field
with a non-empty value list (any string, with no enum validation, is a
legal event name); when the field is absent the dispatcher skips directly
to Process, making no BeforeEvent, handler or AfterEvent call. -/
theorem dispatch_event_branch_iff (inst : Instance) (req : Request) (cname : String)
    (hparse : req.parseFormError = none)
    (hdec : req.decodeError = none)
    (hinitok : (initStage inst).2 = none) :
    ((dispatch inst req cname).hasEvent = true ↔
      ∃ e rest, lookupField req.formData "hxc-event" = some (e :: rest))
    ∧ (lookupField req.formData "hxc-event" = none →
        (∀ e, Call.beforeEvent e ∉ (dispatch inst req cname).calls)
        ∧ (∀ n, Call.onEvent n ∉ (dispatch inst req cname).calls)
        ∧ (∀ e, Call.afterEvent e ∉ (dispatch inst req cname).calls)) := by
  obtain ⟨pf, de, fd⟩ := req
  subst hparse
  subst hdec
  rcases hI : initStage inst with ⟨ic, ie⟩
  rw [hI] at hinitok
  subst hinitok
  have hic : ∀ c ∈ ic, c = Call.init := by
    intro c hc
    exact mem_initStage_calls (by rw [hI]; exact hc)
  have hvc : ∀ c ∈ (if inst.hasValidator then [Call.validate] else []), c = Call.validate := by
    split <;> simp
  rcases hE : lookupField fd "hxc-event" with _ | (_ | ⟨e, rest⟩) <;>
      simp only [dispatch, hI, hE]
  · constructor
    · rw [finishStage_hasEvent]
      simp [hE]
    · intro _
      refine ⟨?_, ?_, ?_⟩ <;>
        · intro x hmem
          rcases mem_finishStage_calls hmem with h | h | h
          · rcases List.mem_append.1 h with h | h
            · exact absurd (hic _ h) (by simp)
            · exact absurd (hvc _ h) (by simp)
          · simp at h
          · simp at h
  · constructor
    · rw [finishStage_hasEvent]
      simp [hE]
    · intro habs
      cases habs
  · constructor
    · rcases hH : handleEvent inst e cname with ⟨ec, he⟩
      rcases he with _ | ee <;> simp only [hH]
      · rw [finishStage_hasEvent]
        simp
      · simp
    · intro habs
      cases habs

/-- Witness for C4 at a request with no event field. -/
theorem dispatch_event_branch_iff_witness :
    (((dispatch baseInstance reqPlain "demo").hasEvent = true ↔
      ∃ e rest, lookupField reqPlain.formData "hxc-event" = some (e :: rest)))
    ∧ (lookupField reqPlain.formData "hxc-event" = none →
        (∀ e, Call.beforeEvent e ∉ (dispatch baseInstance reqPlain "demo").calls)
        ∧ (∀ n, Call.onEvent n ∉ (dispatch baseInstance reqPlain "demo").calls)
        ∧ (∀ e, Call.afterEvent e ∉ (dispatch baseInstance reqPlain "demo").calls)) :=
  dispatch_event_branch_iff baseInstance reqPlain "demo" rfl rfl rfl

/-- C5: when BeforeEvent returns a non-nil error the handler, AfterEvent,
Process and Render are never called; when the event handler returns a
non-nil error, AfterEvent, Process and Render are never called (the error
path is taken instead). -/
theorem dispatch_event_error_short_circuit (inst : Instance) (req : Request)
    (cname e : String) (rest : List String)
    (hparse : req.parseFormError = none)
    (hdec : req.decodeError = none)
    (hinitok : (initStage inst).2 = none)
    (hevt : lookupField req.formData "hxc-event" = some (e :: rest)) :
    (∀ msg, (beforeEventStage inst e).2 = some msg →
      (dispatch inst req cname).outcome = some (ErrKind.event (EventErr.beforeEventFailed msg))
      ∧ (∀ n, Call.onEvent n ∉ (dispatch inst req cname).calls)
      ∧ (∀ e2, Call.afterEvent e2 ∉ (dispatch inst req cname).calls)
      ∧ Call.process ∉ (dispatch inst req cname).calls
      ∧ Call.render ∉ (dispatch inst req cname).calls)
    ∧ (∀ (m : GoMethod) (msg : String), (beforeEventStage inst e).2 = none →
      lookupMethod inst.methods (methodNameFor e) = some m →
      m.numIn = 1 → m.in0IsContext = true → callResultError m = some msg →
      (dispatch inst req cname).outcome = some (ErrKind.event (EventErr.handlerFailed msg))
      ∧ (∀ e2, Call.afterEvent e2 ∉ (dispatch inst req cname).calls)
      ∧ Call.process ∉ (dispatch inst req cname).calls
      ∧ Call.render ∉ (dispatch inst req cname).calls) := by
  obtain ⟨pf, de, fd⟩ := req
  subst hparse
  subst hdec
  rcases hI : initStage inst with ⟨ic, ie⟩
  rw [hI] at hinitok
  subst hinitok
  have hic : ∀ c ∈ ic, c = Call.init := fun c hc => mem_initStage_calls (by rw [hI]; exact hc)
  have hvc : ∀ c ∈ (if inst.hasValidator then [Call.validate] else []), c = Call.validate := by
    split <;> simp
  constructor
  · intro msg hbe
    rcases hB : beforeEventStage inst e with ⟨bc, be⟩
    rw [hB] at hbe
    subst hbe
    have hbc : ∀ c ∈ bc, c = Call.beforeEvent e :=
      fun c hc => mem_beforeEventStage_calls (by rw [hB]; exact hc)
    have hHE : handleEvent inst e cname = (bc, some (EventErr.beforeEventFailed msg)) := by
      simp only [handleEvent, hB]
    simp only [dispatch, hI, hevt, hHE]
    have hall : ∀ c ∈ (ic ++ (if inst.hasValidator then [Call.validate] else [])) ++ bc,
        c = Call.init ∨ c = Call.validate ∨ c = Call.beforeEvent e := by
      intro c hc
      rcases List.mem_append.1 hc with h | h
      · rcases List.mem_append.1 h with h | h
        · exact Or.inl (hic _ h)
        · exact Or.inr (Or.inl (hvc _ h))
      · exact Or.inr (Or.inr (hbc _ h))
    refine ⟨trivial, ?_, ?_, ?_, ?_⟩
    · intro n hmem
      rcases hall _ hmem with h | h | h <;> simp at h
    · intro e2 hmem
      rcases hall _ hmem with h | h | h <;> simp at h
    · intro hmem
      rcases hall _ hmem with h | h | h <;> simp at h
    · intro hmem
      rcases hall _ hmem with h | h | h <;> simp at h
  · intro m msg hbe hm hin hctx hcall
    rcases hB : beforeEventStage inst e with ⟨bc, be⟩
    rw [hB] at hbe
    subst hbe
    have hbc : ∀ c ∈ bc, c = Call.beforeEvent e :=
      fun c hc => mem_beforeEventStage_calls (by rw [hB]; exact hc)
    have hHE : handleEvent inst e cname
        = (bc ++ [Call.onEvent (methodNameFor e)], some (EventErr.handlerFailed msg)) := by
      simp [handleEvent, hB, hm, hin, hctx, hcall]
    simp only [dispatch, hI, hevt, hHE]
    have hall : ∀ c ∈ (ic ++ (if inst.hasValidator then [Call.validate] else []))
        ++ (bc ++ [Call.onEvent (methodNameFor e)]),
        c = Call.init ∨ c = Call.validate ∨ c = Call.beforeEvent e
          ∨ c = Call.onEvent (methodNameFor e) := by
      intro c hc
      rcases List.mem_append.1 hc with h | h
      · rcases List.mem_append.1 h with h | h
        · exact Or.inl (hic _ h)
        · exact Or.inr (Or.inl (hvc _ h))
      · rcases List.mem_append.1 h with h | h
        · exact Or.inr (Or.inr (Or.inl (hbc _ h)))
        · simp at h
          exact Or.inr (Or.inr (Or.inr h))
    refine ⟨trivial, ?_, ?_, ?_⟩
    · intro e2 hmem
      rcases hall _ hmem with h | h | h | h <;> simp at h
    · intro hmem
      rcases hall _ hmem with h | h | h | h <;> simp at h
    · intro hmem
      rcases hall _ hmem with h | h | h | h <;> simp at h

/-- Witness for C5 at a component whose BeforeEvent hook fails. -/
theorem dispatch_event_error_short_circuit_witness :
    (dispatch instBeforeFails reqFoo "demo").outcome
        = some (ErrKind.event (EventErr.beforeEventFailed "denied"))
    ∧ (∀ n, Call.onEvent n ∉ (dispatch instBeforeFails reqFoo "demo").calls)
    ∧ Call.process ∉ (dispatch instBeforeFails reqFoo "demo").calls
    ∧ Call.render ∉ (dispatch instBeforeFails reqFoo "demo").calls :=
  let h := (dispatch_event_error_short_circuit instBeforeFails reqFoo "demo" "foo" []
    rfl rfl rfl rfl).1 "denied" rfl
  ⟨h.1, h.2.1, h.2.2.2.1, h.2.2.2.2⟩

/-- C6: outbound HTMX response headers are written only after Process
succeeds: a failure at parse, decode, Init, the event branch or Process
leaves every outbound header unset, and any header that is written is
justified by the instance implementing the corresponding getter
capability returning a non-empty value (true for the refresh flag). -/
theorem dispatch_outbound_headers_gated (inst : Instance) (req : Request) (cname : String) :
    (((dispatch inst req cname).outcome = some ErrKind.parse
        ∨ (dispatch inst req cname).outcome = some ErrKind.decode
        ∨ (dispatch inst req cname).outcome = some ErrKind.init
        ∨ (∃ ee, (dispatch inst req cname).outcome = some (ErrKind.event ee))
        ∨ (dispatch inst req cname).outcome = some ErrKind.process) →
      (dispatch inst req cname).hxHeaders = [])
    ∧ (∀ n v, (n, v) ∈ (dispatch inst req cname).hxHeaders → headerJustified inst n v) := by
  constructor
  · intro h
    rcases dispatch_headers_cases inst req cname with hc | hc
    · exact hc
    · exfalso
      rcases hc.2 with ho | ho | ho <;>
        rcases h with h | h | h | ⟨ee, h⟩ | h <;> simp_all
  · intro n v hm
    rcases dispatch_headers_cases inst req cname with hc | hc
    · rw [hc] at hm
      simp at hm
    · rw [hc.1] at hm
      exact mem_applyHxResponseHeaders hm

/-- Witness for C6 at a component whose Process hook fails while a
header getter is implemented and non-empty. -/
theorem dispatch_outbound_headers_gated_witness :
    (dispatch instProcessFails reqPlain "demo").outcome = some ErrKind.process
    ∧ (dispatch instProcessFails reqPlain "demo").hxHeaders = [] :=
  ⟨by decide, (dispatch_outbound_headers_gated instProcessFails reqPlain "demo").1
      (Or.inr (Or.inr (Or.inr (Or.inr (by decide)))))⟩

/-- C7: when form decoding of the fresh instance fails, the request
terminates with the distinct decode error kind and HTTP status 400, and
no lifecycle hook runs at all: the call log is empty. -/
theorem dispatch_decode_failure_short_circuit
    (inst : Instance) (req : Request) (cname msg : String)
    (hparse : req.parseFormError = none)
    (hdec : req.decodeError = some msg) :
    (dispatch inst req cname).outcome = some ErrKind.decode
    ∧ (dispatch inst req cname).statusCode = 400
    ∧ (dispatch inst req cname).calls = [] := by
  obtain ⟨pf, de, fd⟩ := req
  subst hparse
  subst hdec
  simp [dispatch]

/-- Witness for C7 at a request whose decode step fails. -/
theorem dispatch_decode_failure_short_circuit_witness :
    (dispatch baseInstance reqBadDecode "demo").outcome = some ErrKind.decode
    ∧ (dispatch baseInstance reqBadDecode "demo").statusCode = 400
    ∧ (dispatch baseInstance reqBadDecode "demo").calls = [] :=
  dispatch_decode_failure_short_circuit baseInstance reqBadDecode "demo" "bad int" rfl rfl

/-- C8: a non-empty sequence of validation errors returned by Validate is
never fatal: Validate is invoked, and the dispatch outcome and HTTP
status are identical to those of the same instance without the Validator
capability, so validation errors never produce an HTTP error
response. -/
theorem dispatch_validation_non_fatal (inst : Instance) (req : Request) (cname : String)
    (hval : inst.hasValidator = true)
    (hvne : inst.validateErrs ≠ [])
    (hparse : req.parseFormError = none)
    (hdec : req.decodeError = none)
    (hinitok : (initStage inst).2 = none) :
    Call.validate ∈ (dispatch inst req cname).calls
    ∧ (dispatch inst req cname).outcome
        = (dispatch { inst with hasValidator := false } req cname).outcome
    ∧ (dispatch inst req cname).statusCode
        = (dispatch { inst with hasValidator := false } req cname).statusCode := by
  obtain ⟨pf, de, fd⟩ := req
  subst hparse
  subst hdec
  rcases hI : initStage inst with ⟨ic, ie⟩
  rw [hI] at hinitok
  subst hinitok
  have hI' : initStage { inst with hasValidator := false } = (ic, none) := by
    rw [show initStage { inst with hasValidator := false } = initStage inst from rfl, hI]
  have hHE : ∀ e n, handleEvent { inst with hasValidator := false } e n = handleEvent inst e n :=
    fun _ _ => rfl
  have hFS : ∀ cs he, finishStage { inst with hasValidator := false } cs he = finishStage inst cs he :=
    fun _ _ => rfl
  rcases hE : lookupField fd "hxc-event" with _ | (_ | ⟨e, rest⟩) <;>
      simp only [dispatch, hI, hI', hE, hHE, hFS, hval]
  · exact ⟨finishStage_calls_mono (by simp),
      (finishStage_outcome_const inst _ _ _ _).1,
      (finishStage_outcome_const inst _ _ _ _).2⟩
  · exact ⟨finishStage_calls_mono (by simp),
      (finishStage_outcome_const inst _ _ _ _).1,
      (finishStage_outcome_const inst _ _ _ _).2⟩
  · rcases hH : handleEvent inst e cname with ⟨ec, he⟩
    rcases he with _ | ee <;> simp only [hH]
    · exact ⟨finishStage_calls_mono (by simp),
        (finishStage_outcome_const inst _ _ _ _).1,
        (finishStage_outcome_const inst _ _ _ _).2⟩
    · simp

/-- Witness for C8 at a component whose Validate hook reports an
error. -/
theorem dispatch_validation_non_fatal_witness :
    Call.validate ∈ (dispatch instValidatorErrs reqPlain "demo").calls
    ∧ (dispatch instValidatorErrs reqPlain "demo").outcome
        = (dispatch { instValidatorErrs with hasValidator := false } reqPlain "demo").outcome
    ∧ (dispatch instValidatorErrs reqPlain "demo").statusCode
        = (dispatch { instValidatorErrs with hasValidator := false } reqPlain "demo").statusCode :=
  dispatch_validation_non_fatal instValidatorErrs reqPlain "demo" rfl (by decide) rfl rfl rfl

/-- C9: Register fails at registration time exactly when the name is
empty, the type argument is not a pointer type (a nil reflected type
included), the pointee is not a struct, the type does not satisfy the
render contract, or the name is already registered; otherwise it inserts
the name-to-struct-type entry into the table. -/
theorem Register_spec (r : Registry) (name : String) (t : Option RType) :
    (regOk (Register r name t) = false ↔
      (name = "" ∨ typeIsPtr t = false ∨ typeElemIsStruct t = false
        ∨ typeImplementsComponent t = false ∨ isRegistered r name = true))
    ∧ (∀ r', Register r name t = .ok r' →
        ∃ ty, t = some ty ∧ r' = (name, ⟨ty.elemName, true, true⟩) :: r) := by
  constructor
  · by_cases hn : name = ""
    · simp [Register, regOk, hn]
    rcases t with _ | ty
    · simp [Register, regOk, hn, typeIsPtr]
    by_cases h1 : ty.kind = RKind.ptr
    · by_cases h2 : ty.elemKind = RKind.struct_
      · by_cases h3 : ty.implementsComponent = true
        · by_cases h4 : isRegistered r name = true
          · simp [Register, regOk, hn, h1, h2, h3, h4, typeIsPtr, typeElemIsStruct,
              typeImplementsComponent]
          · simp [Register, regOk, hn, h1, h2, h3, h4, typeIsPtr, typeElemIsStruct,
              typeImplementsComponent]
        · simp [Register, regOk, hn, h1, h2, h3, typeIsPtr, typeElemIsStruct,
            typeImplementsComponent]
      · simp [Register, regOk, hn, h1, h2, typeIsPtr, typeElemIsStruct]
    · simp [Register, regOk, hn, h1, typeIsPtr]
  · intro r' h
    obtain ⟨ty, hty, _, _, _, hr⟩ := Register_ok_shape h
    exact ⟨ty, hty, hr⟩

/-- Witness for C9 at a fresh registry and a well-formed component
type. -/
theorem Register_spec_witness :
    (regOk (Register [] "counter" (some counterType)) = false ↔
      ("counter" = "" ∨ typeIsPtr (some counterType) = false
        ∨ typeElemIsStruct (some counterType) = false
        ∨ typeImplementsComponent (some counterType) = false
        ∨ isRegistered [] "counter" = true))
    ∧ (∀ r', Register [] "counter" (some counterType) = .ok r' →
        ∃ ty, some counterType = some ty
          ∧ r' = ("counter", ⟨ty.elemName, true, true⟩) :: []) :=
  Register_spec [] "counter" (some counterType)

/-- C10: in every registry state reachable by Register operations from a
fresh registry, every entry maps a name to a struct-kind type whose
pointer type implements the render contract, so for a per-request
instance of a registered entry the dispatcher Configuration Error branch
(component does not implement the render contract) is unreachable. -/
theorem registry_render_contract_invariant (r : Registry) (hr : Reachable r) :
    (∀ p ∈ r, p.2.elemIsStruct = true ∧ p.2.implComponent = true)
    ∧ (∀ (name : String) (entry : RegEntry), (name, entry) ∈ r →
        ∀ (inst : Instance) (req : Request) (cname : String),
          inst.implementsComponent = entry.implComponent →
          (dispatch inst req cname).outcome ≠ some ErrKind.configuration) := by
  have hinv : ∀ p ∈ r, p.2.elemIsStruct = true ∧ p.2.implComponent = true := by
    induction hr with
    | empty => simp
    | step hprev hreg ih =>
      obtain ⟨ty, -, -, -, -, hshape⟩ := Register_ok_shape hreg
      subst hshape
      intro p hp
      rcases List.mem_cons.1 hp with h | h
      · subst h
        exact ⟨rfl, rfl⟩
      · exact ih p h
  refine ⟨hinv, ?_⟩
  intro name entry hmem inst req cname himpl
  have : entry.implComponent = true := (hinv (name, entry) hmem).2
  exact dispatch_config_unreachable req cname (by rw [himpl, this])

/-- Witness for C10 at the registry produced by one successful
registration. -/
theorem registry_render_contract_invariant_witness :
    Register [] "counter" (some counterType) = Except.ok demoRegistry
    ∧ (∀ p ∈ demoRegistry, p.2.elemIsStruct = true ∧ p.2.implComponent = true)
    ∧ (dispatch baseInstance reqPlain "counter").outcome ≠ some ErrKind.configuration := by
  have hreg : Register [] "counter" (some counterType) = Except.ok demoRegistry := rfl
  refine ⟨hreg,
    (registry_render_contract_invariant demoRegistry (Reachable.step Reachable.empty hreg)).1, ?_⟩
  exact (registry_render_contract_invariant demoRegistry
      (Reachable.step Reachable.empty hreg)).2 "counter" counterEntry (by simp [demoRegistry])
      baseInstance reqPlain "counter" rfl

end HxComponents
